import Mathlib

/-!
Verification of the VibeCode turn-orchestration core (shallow embedding).

The definitions below are translated from the repository's TypeScript source:
* `src/inngest/functions.ts` — the `codeAgent` Inngest function: the file-state
  resolver `getExistingFiles`, the sanitizer `sanitizeContent`, the agent
  network loop (router + `onResponse` lifecycle + tool handlers), the outcome
  classification `hasError`, and the `save-result` persistence step;
* `src/inngest/utils.ts` — `lastAssistantTextMessageContent`, `parseAgentOutput`;
* `src/lib/usage.ts` — `consumeCredits` over the `rate-limiter-flexible` store;
* `src/modules/messages/server/procedures.ts` — `messageRouter.create`;
* `src/modules/projects/server/procedures.ts` — `projectRouter.create`;
* `src/trpc/init.ts` — the `protectedProcedure` authentication middleware.

Strings are modelled by Lean `String` (a list of Unicode scalar values), the
database by a list of message records in creation order (Prisma `createdAt`
order coincides with insertion order here; fragments are created nested inside
their message's `create`, so fragment creation order coincides with the owning
message's creation order).
-/

namespace VibeCode

/-! ### Sanitization (`sanitizeContent`, functions.ts lines 55–62)

The JS code is
`content.replace(/\u0000/g, "").replace(/[\u0001-\u0008\u000B\u000C\u000E-\u001F\u007F]/g, "").trim()`
guarded by `if (!content) return content;` (the only falsy `string` is `""`).
`String.prototype.trim` removes the ECMAScript WhiteSpace and LineTerminator
code points from both ends. -/

def isNulChar (c : Char) : Bool := c.toNat == 0

/-- Characters removed by the second `.replace`: U+0001–U+0008, U+000B, U+000C,
U+000E–U+001F, U+007F. -/
def isRemovedControl (c : Char) : Bool :=
  (1 ≤ c.toNat && c.toNat ≤ 0x08) || c.toNat == 0x0B || c.toNat == 0x0C ||
  (0x0E ≤ c.toNat && c.toNat ≤ 0x1F) || c.toNat == 0x7F

/-- The ECMAScript `trim` character set: WhiteSpace (TAB, VT, FF, SP, NBSP,
ZWNBSP, Unicode space separators) plus LineTerminator (LF, CR, LS, PS). -/
def isJsWhitespace (c : Char) : Bool :=
  c.toNat == 0x09 || c.toNat == 0x0A || c.toNat == 0x0B || c.toNat == 0x0C ||
  c.toNat == 0x0D || c.toNat == 0x20 || c.toNat == 0xA0 || c.toNat == 0x1680 ||
  (0x2000 ≤ c.toNat && c.toNat ≤ 0x200A) || c.toNat == 0x2028 ||
  c.toNat == 0x2029 || c.toNat == 0x202F || c.toNat == 0x205F ||
  c.toNat == 0x3000 || c.toNat == 0xFEFF

/-- JS `String.prototype.trim` on the character list. -/
def jsTrimList (l : List Char) : List Char :=
  ((l.dropWhile isJsWhitespace).reverse.dropWhile isJsWhitespace).reverse

/-- The two `.replace(..., "")` passes followed by `.trim()`. -/
def sanitizeList (l : List Char) : List Char :=
  jsTrimList ((l.filter (fun c => !isNulChar c)).filter (fun c => !isRemovedControl c))

/-- `sanitizeContent` from functions.ts: `if (!content) return content;` then
replace NULs, replace control characters, trim. -/
def sanitizeContent (s : String) : String :=
  if s = "" then s else String.mk (sanitizeList s.data)

/-! #### Sanitizer lemmas -/

theorem dropWhile_dropWhile (p : α → Bool) (l : List α) :
    (l.dropWhile p).dropWhile p = l.dropWhile p := by
  induction l with
  | nil => rfl
  | cons a t ih =>
    by_cases h : p a
    · simp [List.dropWhile_cons, h, ih]
    · simp [List.dropWhile_cons, h]

theorem mem_of_mem_dropWhile {p : α → Bool} {l : List α} {a : α}
    (h : a ∈ l.dropWhile p) : a ∈ l :=
  (List.dropWhile_sublist p).mem h

theorem mem_of_mem_jsTrimList {l : List Char} {a : Char}
    (h : a ∈ jsTrimList l) : a ∈ l := by
  unfold jsTrimList at h
  rw [List.mem_reverse] at h
  have h2 := mem_of_mem_dropWhile h
  rw [List.mem_reverse] at h2
  exact mem_of_mem_dropWhile h2

/-- Every character surviving `sanitizeList` came from the input and is neither
a NUL nor a removed control character. -/
theorem sanitizeList_mem {l : List Char} {a : Char} (h : a ∈ sanitizeList l) :
    a ∈ l ∧ isNulChar a = false ∧ isRemovedControl a = false := by
  unfold sanitizeList at h
  have h1 := mem_of_mem_jsTrimList h
  rw [List.mem_filter] at h1
  obtain ⟨h2, hc⟩ := h1
  rw [List.mem_filter] at h2
  obtain ⟨h3, hn⟩ := h2
  exact ⟨h3, by simpa using hn, by simpa using hc⟩

/-- If a list already survives a filter, the filter is the identity on it. -/
theorem filter_of_forall {p : α → Bool} {l : List α}
    (h : ∀ a ∈ l, p a = true) : l.filter p = l :=
  List.filter_eq_self.mpr h

/-- `jsTrimList l` is of the shape `t` with `dropWhile ws (dropWhile ws l) ...`:
the list it returns appears literally at the front of `dropWhile ws l`. -/
theorem jsTrimList_append (l : List Char) :
    ∃ w, l.dropWhile isJsWhitespace = jsTrimList l ++ w := by
  obtain ⟨u, hu⟩ :=
    List.dropWhile_suffix (l := (l.dropWhile isJsWhitespace).reverse) isJsWhitespace
  refine ⟨u.reverse, ?_⟩
  have : (l.dropWhile isJsWhitespace).reverse.reverse =
      (u ++ (l.dropWhile isJsWhitespace).reverse.dropWhile isJsWhitespace).reverse := by
    rw [hu]
  simpa [jsTrimList, List.reverse_append] using this

theorem head_dropWhile_false {p : α → Bool} {l : List α} {a : α} {t : List α}
    (h : l.dropWhile p = a :: t) : p a = false := by
  induction l with
  | nil => simp at h
  | cons x xs ih =>
    rw [List.dropWhile_cons] at h
    by_cases hx : p x
    · rw [if_pos hx] at h; exact ih h
    · rw [if_neg hx] at h
      cases h
      exact Bool.eq_false_iff.mpr hx

/-- The front of a trimmed list is not whitespace. -/
theorem jsTrimList_head_false {l : List Char} {a : Char} {t : List Char}
    (h : jsTrimList l = a :: t) : isJsWhitespace a = false := by
  obtain ⟨w, hw⟩ := jsTrimList_append l
  rw [h] at hw
  exact head_dropWhile_false (l := l) hw

/-- The back of a trimmed list is not whitespace. -/
theorem jsTrimList_reverse_head_false {l : List Char} {a : Char} {t : List Char}
    (h : (jsTrimList l).reverse = a :: t) : isJsWhitespace a = false := by
  unfold jsTrimList at h
  rw [List.reverse_reverse] at h
  exact head_dropWhile_false (l := (l.dropWhile isJsWhitespace).reverse) h

theorem jsTrimList_idem (l : List Char) : jsTrimList (jsTrimList l) = jsTrimList l := by
  have hfront : (jsTrimList l).dropWhile isJsWhitespace = jsTrimList l := by
    cases h : jsTrimList l with
    | nil => rfl
    | cons a t =>
      have ha := jsTrimList_head_false h
      rw [List.dropWhile_cons, ha]
      simp
  show (((jsTrimList l).dropWhile isJsWhitespace).reverse.dropWhile isJsWhitespace).reverse
      = jsTrimList l
  rw [hfront]
  cases h : (jsTrimList l).reverse with
  | nil =>
    have hl : jsTrimList l = [] := by simpa using congrArg List.reverse h
    rw [hl]
    rfl
  | cons a t =>
    have ha := jsTrimList_reverse_head_false h
    have hl : jsTrimList l = (a :: t).reverse := by rw [← h, List.reverse_reverse]
    rw [List.dropWhile_cons, ha, hl]
    simp

theorem sanitizeList_idem (l : List Char) :
    sanitizeList (sanitizeList l) = sanitizeList l := by
  have h1 : (sanitizeList l).filter (fun c => !isNulChar c) = sanitizeList l :=
    filter_of_forall (fun a ha => by simp [(sanitizeList_mem ha).2.1])
  have h2 : (sanitizeList l).filter (fun c => !isRemovedControl c) = sanitizeList l :=
    filter_of_forall (fun a ha => by simp [(sanitizeList_mem ha).2.2])
  show jsTrimList (((sanitizeList l).filter _).filter _) = sanitizeList l
  rw [h1, h2]
  exact jsTrimList_idem _

theorem jsTrimList_head_all (l : List Char) :
    (jsTrimList l).head?.all (fun c => !isJsWhitespace c) = true := by
  cases h : jsTrimList l with
  | nil => simp
  | cons a t => simp [jsTrimList_head_false h]

theorem jsTrimList_getLast_all (l : List Char) :
    (jsTrimList l).getLast?.all (fun c => !isJsWhitespace c) = true := by
  rw [← List.head?_reverse]
  cases h : (jsTrimList l).reverse with
  | nil => simp
  | cons a t => simp [jsTrimList_reverse_head_false h]

theorem sanitizeContent_idem (s : String) :
    sanitizeContent (sanitizeContent s) = sanitizeContent s := by
  unfold sanitizeContent
  by_cases h : s = ""
  · simp [h]
  · rw [if_neg h]
    by_cases h2 : String.mk (sanitizeList s.data) = ""
    · rw [if_pos h2]
    · rw [if_neg h2]
      exact congrArg String.mk (sanitizeList_idem s.data)

theorem sanitizeContent_data_all (s : String) :
    (sanitizeContent s).data.all (fun c => !isNulChar c && !isRemovedControl c) = true := by
  unfold sanitizeContent
  by_cases h : s = ""
  · subst h; rfl
  · rw [if_neg h, List.all_eq_true]
    intro c hc
    obtain ⟨-, hn, hr⟩ := sanitizeList_mem hc
    simp [hn, hr]

theorem sanitizeContent_head_all (s : String) :
    (sanitizeContent s).data.head?.all (fun c => !isJsWhitespace c) = true := by
  unfold sanitizeContent
  by_cases h : s = ""
  · subst h; rfl
  · rw [if_neg h]
    exact jsTrimList_head_all _

theorem sanitizeContent_getLast_all (s : String) :
    (sanitizeContent s).data.getLast?.all (fun c => !isJsWhitespace c) = true := by
  unfold sanitizeContent
  by_cases h : s = ""
  · subst h; rfl
  · rw [if_neg h]
    exact jsTrimList_getLast_all _

/-- Convenience restatement: sanitized text never contains a NUL byte. -/
theorem sanitizeContent_no_nul {s : String} {c : Char}
    (h : c ∈ (sanitizeContent s).data) : isNulChar c = false := by
  have := sanitizeContent_data_all s
  rw [List.all_eq_true] at this
  have h2 := this c h
  rw [Bool.and_eq_true, Bool.not_eq_true'] at h2
  exact h2.1

/-! ### Data model (prisma Message/Fragment records)

`Message` carries `projectId`, `content`, `role` (`USER`/`ASSISTANT`),
`type` (`RESULT`/`ERROR`), `images`, and at most one nested `Fragment`
(`title`, `sandboxURL`, `files`).  The database is a `List Message` whose
order is creation (`createdAt`) order; a fragment is created nested inside
its message's `create`, so a single list models both tables and fragment
creation order coincides with the owning message's position. -/

/-- A Prisma-Json file map: relative path → full text content
(JS object keys are unique; the write tool upserts, see `upsertFile`). -/
abbrev FileMap := List (String × String)

structure Fragment where
  title : String
  sandboxURL : String
  files : FileMap
deriving DecidableEq

inductive Role where
  | user
  | assistant
deriving DecidableEq

inductive MsgType where
  | result
  | error
deriving DecidableEq

structure Message where
  projectId : String
  content : String
  role : Role
  msgType : MsgType
  images : List String
  fragment : Option Fragment
deriving DecidableEq

/-! ### Project File State Resolver (`getExistingFiles`, functions.ts 24–43)

The code runs `prisma.fragment.findFirst({ where: { message: { projectId } },
orderBy: { createdAt: "desc" } })` — the newest fragment whose owning message
belongs to the project — and returns its `files` (or `{}` when there is none,
or when `files` is not an object).  In the list model, scanning the database
newest-first for a fragment-bearing message of the project is the same query. -/

def getExistingFiles (db : List Message) (projectId : String) : FileMap :=
  match db.reverse.find? (fun m => m.projectId == projectId && m.fragment.isSome) with
  | some m =>
    match m.fragment with
    | some f => f.files
    | none => []
  | none => []

/-- Modelled from the spec's resolver algorithm (§4.2): "query Messages for the
given project, find the most recently created Message that carries a Fragment,
return its file map; if none exists, return the empty map."  Stated separately
from `getExistingFiles` so the refinement can be proved rather than assumed. -/
def resolveSpec (db : List Message) (projectId : String) : FileMap :=
  match (db.filter (fun m => m.projectId == projectId)).reverse.find?
      (fun m => m.fragment.isSome) with
  | some m =>
    match m.fragment with
    | some f => f.files
    | none => []
  | none => []

theorem find?_filter (p q : α → Bool) (l : List α) :
    (l.filter p).find? q = l.find? (fun a => p a && q a) := by
  induction l with
  | nil => rfl
  | cons a t ih =>
    by_cases hp : p a
    · by_cases hq : q a
      · simp [List.filter_cons, hp, List.find?_cons, hq]
      · simp [List.filter_cons, hp, List.find?_cons, hq, ih]
    · simp [List.filter_cons, hp, List.find?_cons, ih]

/-- The code's resolver agrees with the spec's description. -/
theorem getExistingFiles_eq_resolveSpec (db : List Message) (pid : String) :
    getExistingFiles db pid = resolveSpec db pid := by
  unfold getExistingFiles resolveSpec
  rw [← List.filter_reverse, find?_filter]

/-- Appending fragment-free messages (error outcomes, user messages) never
changes the resolved file map. -/
theorem getExistingFiles_append_fragfree (db errs : List Message) (pid : String)
    (h : ∀ m ∈ errs, m.fragment = none) :
    getExistingFiles (db ++ errs) pid = getExistingFiles db pid := by
  unfold getExistingFiles
  rw [List.reverse_append, List.find?_append]
  have hnone : errs.reverse.find?
      (fun m => m.projectId == pid && m.fragment.isSome) = none := by
    rw [List.find?_eq_none]
    intro m hm
    rw [List.mem_reverse] at hm
    simp [h m hm]
  rw [hnone, Option.none_or]

/-- A project none of whose messages carries a fragment resolves to the empty
map. -/
theorem getExistingFiles_empty (db : List Message) (pid : String)
    (h : ∀ m ∈ db, m.projectId = pid → m.fragment = none) :
    getExistingFiles db pid = [] := by
  unfold getExistingFiles
  have hnone : db.reverse.find?
      (fun m => m.projectId == pid && m.fragment.isSome) = none := by
    rw [List.find?_eq_none]
    intro m hm
    rw [List.mem_reverse] at hm
    by_cases hp : m.projectId = pid
    · simp [h m hm hp]
    · simp [hp]
  rw [hnone]

/-! ### Agent network loop (functions.ts 120–292, utils.ts 69–85)

An agent-kit message is modelled by its role and type/content; one network
iteration (one agent inference plus its tool executions) is modelled by the
inference's output message list together with the file writes performed by the
`createOrUpdateFiles` tool handler during that iteration. -/

/-- JS `hay.startsWith(needle)` on character lists. -/
def startsWithL : List Char → List Char → Bool
  | _, [] => true
  | [], _ :: _ => false
  | h :: hs, n :: ns => h == n && startsWithL hs ns

/-- JS `hay.includes(needle)` on character lists. -/
def containsL : List Char → List Char → Bool
  | [], needle => needle.isEmpty
  | h :: t, needle => startsWithL (h :: t) needle || containsL t needle

/-- `lastAssistantTextMessage.includes("<task_summary>")` (functions.ts 257). -/
def containsTaskSummary (s : String) : Bool :=
  containsL s.data "<task_summary>".data

/-- An agent-kit output message: a text message with its role and a content
that is either a plain string or an array of text chunks, or a non-text
message (tool call / tool result). -/
inductive AKMessage where
  | text (role : String) (content : String ⊕ List String)
  | nonText (role : String)
deriving DecidableEq

/-- `lastAssistantTextMessageContent` (utils.ts 69–85): `findLastIndex` of a
message with `role === "assistant" && type === "text"`, then its content
(string, or array chunks joined with `""`); `undefined` when there is none. -/
def lastAssistantTextMessageContent (output : List AKMessage) : Option String :=
  match output.reverse.find? (fun m =>
      match m with
      | .text r _ => r == "assistant"
      | .nonText _ => false) with
  | some (.text _ (.inl s)) => some s
  | some (.text _ (.inr chunks)) => some (String.join chunks)
  | _ => none

/-- The network state (`AgentState` in functions.ts): the recorded summary and
the working file map, initialised to `{ summary: "", files: existingFiles }`. -/
structure AgentState where
  summary : String
  files : FileMap
deriving DecidableEq

/-- JS object update `updatedFiles[file.path] = file.content`: replace the
content under an existing key, else append a new key. -/
def upsertFile (fm : FileMap) (path content : String) : FileMap :=
  if fm.any (fun e => e.1 == path) then
    fm.map (fun e => if e.1 == path then (path, content) else e)
  else fm ++ [(path, content)]

/-- The `createOrUpdateFiles` tool handler (functions.ts 188–228) writes each
file into the sandbox and mirrors it into `network.state.data.files`. -/
def applyWrites (fm : FileMap) (writes : List (String × String)) : FileMap :=
  writes.foldl (fun acc w => upsertFile acc w.1 w.2) fm

/-- The `onResponse` lifecycle hook (functions.ts 252–263): if the last
assistant text message exists (a truthy, hence non-empty, string) and contains
`<task_summary>`, record it as the summary.  An empty string cannot contain
the marker, so the JS truthiness guard is subsumed by the `includes` check. -/
def onResponse (st : AgentState) (output : List AKMessage) : AgentState :=
  match lastAssistantTextMessageContent output with
  | some t => if containsTaskSummary t then { st with summary := t } else st
  | none => st

/-- One network iteration as observed by the state: the model responds
(`onResponse` may record the summary), then its tool calls execute
(`createOrUpdateFiles` mirrors writes into the working file map). -/
structure AgentTurnOutput where
  output : List AKMessage
  writes : List (String × String)
deriving DecidableEq

def runIteration (st : AgentState) (o : AgentTurnOutput) : AgentState :=
  let st' := onResponse st o.output
  { st' with files := applyWrites st'.files o.writes }

/-- `createNetwork({ ..., maxIter: 15, ... })` (functions.ts 268). -/
def networkMaxIter : Nat := 15

/-- The network run (functions.ts 265–292): before each agent call the router
returns nothing when `state.data.summary` is truthy (stopping the network) and
the agent otherwise, for at most `maxIter` agent calls.  The environment's
successive agent responses are the list `outs`; the result is the final state
and the number of agent calls made. -/
def runNetwork : Nat → AgentState → List AgentTurnOutput → AgentState × Nat
  | 0, st, _ => (st, 0)
  | _ + 1, st, [] => (st, 0)
  | n + 1, st, o :: rest =>
    if st.summary ≠ "" then (st, 0)
    else
      let r := runNetwork n (runIteration st o) rest
      (r.1, r.2 + 1)

/-! #### Loop lemmas -/

theorem runNetwork_iter_le (n : Nat) (st : AgentState) (outs : List AgentTurnOutput) :
    (runNetwork n st outs).2 ≤ n := by
  induction n generalizing st outs with
  | zero => exact Nat.le_refl 0
  | succ k ih =>
    cases outs with
    | nil => exact Nat.zero_le _
    | cons o rest =>
      rw [runNetwork]
      by_cases h : st.summary ≠ ""
      · rw [if_pos h]; exact Nat.zero_le _
      · rw [if_neg h]
        exact Nat.succ_le_succ (ih _ _)

theorem runNetwork_stop (n : Nat) (st : AgentState) (outs : List AgentTurnOutput)
    (h : st.summary ≠ "") : runNetwork n st outs = (st, 0) := by
  cases n with
  | zero => rfl
  | succ k =>
    cases outs with
    | nil => rfl
    | cons o rest => rw [runNetwork, if_pos h]

/-- If an iteration's output has no marker in its last assistant text, the
iteration leaves the summary unchanged. -/
theorem runIteration_summary (st : AgentState) (o : AgentTurnOutput)
    (h : ∀ t, lastAssistantTextMessageContent o.output = some t →
      containsTaskSummary t = false) :
    (runIteration st o).summary = st.summary := by
  unfold runIteration onResponse
  cases hl : lastAssistantTextMessageContent o.output with
  | none => rfl
  | some t => simp [h t hl]

theorem runNetwork_no_marker (n : Nat) (st : AgentState) (outs : List AgentTurnOutput)
    (h : ∀ o ∈ outs.take n, ∀ t, lastAssistantTextMessageContent o.output = some t →
      containsTaskSummary t = false) :
    (runNetwork n st outs).1.summary = st.summary := by
  induction n generalizing st outs with
  | zero => rfl
  | succ k ih =>
    cases outs with
    | nil => rfl
    | cons o rest =>
      rw [runNetwork]
      by_cases hs : st.summary ≠ ""
      · rw [if_pos hs]
      · rw [if_neg hs]
        have h0 : ∀ t, lastAssistantTextMessageContent o.output = some t →
            containsTaskSummary t = false :=
          h o (by simp [List.take_cons])
        have h1 : ∀ o' ∈ rest.take k, ∀ t,
            lastAssistantTextMessageContent o'.output = some t →
            containsTaskSummary t = false := by
          intro o' ho' t ht
          exact h o' (by simp [List.take_cons]; exact Or.inr ho') t ht
        show (runNetwork k (runIteration st o) rest).1.summary = st.summary
        rw [ih (runIteration st o) rest h1, runIteration_summary st o h0]

/-- The loop stops right after the first iteration that records a summary. -/
theorem runNetwork_first_marker (n : Nat) (st : AgentState) (o : AgentTurnOutput)
    (rest : List AgentTurnOutput) (h0 : ¬st.summary ≠ "")
    (h1 : (runIteration st o).summary ≠ "") :
    runNetwork (n + 1) st (o :: rest) = (runIteration st o, 1) := by
  rw [runNetwork, if_neg h0, runNetwork_stop n _ rest h1]

/-! ### Outcome classification and persistence (functions.ts 293–352, utils.ts 107–121) -/

/-- `parseAgentOutput` (utils.ts 107–121): look at `value[0]`; a non-text
message yields the fixed placeholder `"Fragment"`; a text message yields its
content (array chunks joined with `""`).  An empty `value` makes the JS code
dereference `undefined` (`output.type`), which throws — modelled as `.error`. -/
def parseAgentOutput (value : List AKMessage) : Except String String :=
  match value with
  | [] => .error "TypeError: cannot read properties of undefined"
  | m :: _ =>
    match m with
    | .nonText _ => .ok "Fragment"
    | .text _ (.inl s) => .ok s
    | .text _ (.inr chunks) => .ok (String.join chunks)

/-- `hasError` (functions.ts 313–315):
`!result.state.data.summary || Object.keys(result.state.data.files || {}).length === 0`. -/
def hasError (st : AgentState) : Bool :=
  st.summary == "" || st.files.isEmpty

/-- The fixed user-facing body of an error outcome (functions.ts 327). -/
def errorBody : String := "Something went wrong. Please try again."

/-- The `save-result` step's record construction (functions.ts 322–352): one
`prisma.message.create`, either an ASSISTANT/ERROR message with the fixed body
and no fragment, or an ASSISTANT/RESULT message with its fragment created
nested in the same call (sanitized response body, sanitized title, sanitized
file contents).  `parseAgentOutput` runs only on the success path. -/
def saveResult (pid : String) (st : AgentState) (sandboxUrl : String)
    (titleOutput respOutput : List AKMessage) : Except String Message :=
  if hasError st then
    .ok { projectId := pid, content := errorBody, role := .assistant,
          msgType := .error, images := [], fragment := none }
  else
    match parseAgentOutput respOutput with
    | .error e => .error e
    | .ok resp =>
      match parseAgentOutput titleOutput with
      | .error e => .error e
      | .ok title =>
        .ok { projectId := pid, content := sanitizeContent resp, role := .assistant,
              msgType := .result, images := [],
              fragment := some { title := sanitizeContent title,
                                 sandboxURL := sandboxUrl,
                                 files := st.files.map
                                   (fun e => (e.1, sanitizeContent e.2)) } }

/-- The tail of `codeAgentFunction` after the network run (functions.ts
293–352): `fragmentTitleGenerator.run` and `responseGenerator.run` are awaited
with no try/catch, so a rejected generator call propagates and the save step is
never reached; otherwise the outcome message is built by `saveResult`. -/
def codeAgentTail (pid : String) (st : AgentState) (sandboxUrl : String)
    (titleRun respRun : Except String (List AKMessage)) : Except String Message :=
  match titleRun with
  | .error e => .error e
  | .ok titleOutput =>
    match respRun with
    | .error e => .error e
    | .ok respOutput => saveResult pid st sandboxUrl titleOutput respOutput

/-- The whole persistence effect of the turn tail on the database: when the
tail completes, exactly the one constructed message is appended (message and
nested fragment are a single `prisma.message.create`). -/
def codeAgentSave (db : List Message) (pid : String) (st : AgentState)
    (sandboxUrl : String) (titleRun respRun : Except String (List AKMessage)) :
    Except String (List Message) :=
  match codeAgentTail pid st sandboxUrl titleRun respRun with
  | .error e => .error e
  | .ok m => .ok (db ++ [m])

/-! ### Credit gating and the turn-triggering procedures
(usage.ts, trpc/init.ts, messages/server/procedures.ts, projects/server/procedures.ts) -/

/-- The Clerk identity visible to `auth()` during the request. -/
inductive AuthState where
  | anon
  | user (id : String)
deriving DecidableEq

/-- Behaviour of `rateLimiter.consume(userId, 1)` from `rate-limiter-flexible`:
fulfilled on success; rejected with a `RateLimiterRes` (a plain object, not an
`Error` instance) when the quota is exhausted; rejected with the underlying
`Error` when the store fails. -/
inductive ConsumeResult where
  | ok
  | quotaExceeded
  | storageError
deriving DecidableEq

/-- A thrown JS value, as far as `catch (error) { if (error instanceof Error) }`
can distinguish it. -/
inductive JsThrown where
  | errorInstance (msg : String)
  | nonErrorValue
deriving DecidableEq

/-- `consumeCredits` (usage.ts 22–30): throw `Error("User not authenticate")`
without an identity; otherwise `usageTracker.consume(userId, GENERATION_COST)`,
whose rejection values are described by `ConsumeResult`. -/
def consumeCredits (authS : AuthState) (limiter : ConsumeResult) :
    Except JsThrown Unit :=
  match authS with
  | .anon => .error (.errorInstance "User not authenticate")
  | .user _ =>
    match limiter with
    | .ok => .ok ()
    | .quotaExceeded => .error .nonErrorValue
    | .storageError => .error (.errorInstance "storage failure")

/-- tRPC error codes used by the procedures. -/
inductive TrpcCode where
  | UNAUTHORIZED
  | NOT_FOUND
  | BAD_REQUEST
  | TOO_MANY_REQUESTS
deriving DecidableEq

/-- Externally visible effects of one procedure invocation, in order. -/
inductive TurnEvent where
  | projectLookup
  | gate
  | persistUserMessage
  | sendInngestEvent
deriving DecidableEq

structure ProcResult where
  db : List Message
  trace : List TurnEvent
  procError : Option (TrpcCode × String)
deriving DecidableEq

/-- The user message record created by `messageRouter.create` step 3 and by the
nested `messages.create` of `projectRouter.create`: `role: "USER",
type: "RESULT"`, no fragment. -/
def userMessage (pid value : String) (images : List String) : Message :=
  { projectId := pid, content := value, role := .user, msgType := .result,
    images := images, fragment := none }

/-- `messageRouter.create` (messages/server/procedures.ts 98–164), composed
with the `protectedProcedure` middleware (trpc/init.ts 73–87): UNAUTHORIZED
without an identity; NOT_FOUND when the project lookup fails; then
`consumeCredits()` inside `try/catch` where an `Error` instance maps to
BAD_REQUEST `"Something went wrong"` and any other thrown value to
TOO_MANY_REQUESTS `"You have run out of credits"`; only then is the user
message created and the `code-agent/run` event sent. -/
def messageCreate (db : List Message) (authS : AuthState)
    (limiter : ConsumeResult) (projectFound : Bool) (pid value : String)
    (images : List String) : ProcResult :=
  match authS with
  | .anon => ⟨db, [], some (.UNAUTHORIZED, "Not authenticated. Please Login or Signup")⟩
  | .user _ =>
    if ¬projectFound then
      ⟨db, [.projectLookup], some (.NOT_FOUND, "Project not found")⟩
    else
      match consumeCredits authS limiter with
      | .error (.errorInstance _) =>
        ⟨db, [.projectLookup, .gate], some (.BAD_REQUEST, "Something went wrong")⟩
      | .error .nonErrorValue =>
        ⟨db, [.projectLookup, .gate],
          some (.TOO_MANY_REQUESTS, "You have run out of credits")⟩
      | .ok _ =>
        ⟨db ++ [userMessage pid value images],
          [.projectLookup, .gate, .persistUserMessage, .sendInngestEvent], none⟩

/-- `projectRouter.create` (projects/server/procedures.ts 113–179), composed
with the middleware: same gating, then the project is created together with its
initial user message (nested create), then the event is sent.  The project-name
generation between gate and create is cosmetic and touches no message state. -/
def projectCreate (db : List Message) (authS : AuthState)
    (limiter : ConsumeResult) (newPid value : String) (images : List String) :
    ProcResult :=
  match authS with
  | .anon => ⟨db, [], some (.UNAUTHORIZED, "Not authenticated. Please Login or Signup")⟩
  | .user _ =>
    match consumeCredits authS limiter with
    | .error (.errorInstance _) =>
      ⟨db, [.gate], some (.BAD_REQUEST, "Something went wrong")⟩
    | .error .nonErrorValue =>
      ⟨db, [.gate], some (.TOO_MANY_REQUESTS, "You have run out of credits")⟩
    | .ok _ =>
      ⟨db ++ [userMessage newPid value images],
        [.gate, .persistUserMessage, .sendInngestEvent], none⟩

/-! ### Helper lemmas about classification and persistence -/

theorem hasError_true_iff (st : AgentState) :
    hasError st = true ↔ (st.summary = "" ∨ st.files = []) := by
  unfold hasError
  rw [Bool.or_eq_true, beq_iff_eq, List.isEmpty_eq_true]

theorem hasError_false_iff (st : AgentState) :
    hasError st = false ↔ (st.summary ≠ "" ∧ st.files ≠ []) := by
  rw [← Bool.not_eq_true, hasError_true_iff]
  tauto

/-- Characterisation of a completed `save-result` step: either the error branch
fired with the fixed error record, or the success branch fired with the
sanitized result record and its nested fragment. -/
theorem saveResult_ok_cases {pid url : String} {st : AgentState}
    {titleOutput respOutput : List AKMessage} {m : Message}
    (h : saveResult pid st url titleOutput respOutput = .ok m) :
    (hasError st = true ∧
      m = { projectId := pid, content := errorBody, role := .assistant,
            msgType := .error, images := [], fragment := none }) ∨
    (hasError st = false ∧ ∃ resp title,
      parseAgentOutput respOutput = .ok resp ∧
      parseAgentOutput titleOutput = .ok title ∧
      m = { projectId := pid, content := sanitizeContent resp, role := .assistant,
            msgType := .result, images := [],
            fragment := some { title := sanitizeContent title, sandboxURL := url,
                               files := st.files.map
                                 (fun e => (e.1, sanitizeContent e.2)) } }) := by
  unfold saveResult at h
  by_cases he : hasError st
  · rw [if_pos he] at h
    exact Or.inl ⟨he, (Except.ok.inj h).symm⟩
  · rw [if_neg he] at h
    cases hr : parseAgentOutput respOutput with
    | error e => rw [hr] at h; exact absurd h (by simp)
    | ok resp =>
      rw [hr] at h
      cases ht : parseAgentOutput titleOutput with
      | error e => rw [ht] at h; exact absurd h (by simp)
      | ok title =>
        rw [ht] at h
        exact Or.inr ⟨Bool.eq_false_iff.mpr he, resp, title, rfl, rfl,
          (Except.ok.inj h).symm⟩

/-- A completed `codeAgentTail` means both generator calls returned and the
save step completed on their outputs. -/
theorem codeAgentTail_ok {pid url : String} {st : AgentState}
    {titleRun respRun : Except String (List AKMessage)} {m : Message}
    (h : codeAgentTail pid st url titleRun respRun = .ok m) :
    ∃ titleOutput respOutput, titleRun = .ok titleOutput ∧
      respRun = .ok respOutput ∧
      saveResult pid st url titleOutput respOutput = .ok m := by
  unfold codeAgentTail at h
  cases titleRun with
  | error e => exact absurd h (by simp)
  | ok t =>
    cases respRun with
    | error e => exact absurd h (by simp)
    | ok r => exact ⟨t, r, rfl, rfl, h⟩

/-- The role-restricted fragment invariant: fragments hang only off assistant
messages of kind `result`, and assistant messages carry a fragment exactly when
their kind is `result`.  (User messages are created with kind `result` and no
fragment, so the unrestricted "fragment iff kind `result`" fails; see the C4
counterexample.) -/
def fragInv (m : Message) : Prop :=
  (m.fragment.isSome = true → (m.msgType = .result ∧ m.role = .assistant)) ∧
  (m.role = .assistant → (m.fragment.isSome = true ↔ m.msgType = .result))

def dbInv (db : List Message) : Prop := ∀ m ∈ db, fragInv m

theorem fragInv_userMessage (pid value : String) (images : List String) :
    fragInv (userMessage pid value images) := by
  constructor
  · intro h; exact absurd h (by simp [userMessage])
  · intro h; exact absurd h (by simp [userMessage])

theorem fragInv_saveResult {pid url : String} {st : AgentState}
    {titleOutput respOutput : List AKMessage} {m : Message}
    (h : saveResult pid st url titleOutput respOutput = .ok m) : fragInv m := by
  rcases saveResult_ok_cases h with ⟨-, rfl⟩ | ⟨-, resp, title, -, -, rfl⟩
  · exact ⟨fun hs => absurd hs (by simp), fun _ => by simp⟩
  · exact ⟨fun _ => ⟨rfl, rfl⟩, fun _ => by simp⟩

theorem dbInv_append {db : List Message} {m : Message}
    (hdb : dbInv db) (hm : fragInv m) : dbInv (db ++ [m]) := by
  intro x hx
  rcases List.mem_append.mp hx with h | h
  · exact hdb x h
  · rw [List.mem_singleton] at h
    subst h
    exact hm

/-! ## Claim theorems -/

/-- C10: `sanitizeContent` is idempotent, its output never contains a NUL byte
or any of the removed control characters (U+0001–U+0008, U+000B, U+000C,
U+000E–U+001F, U+007F), and its output has no leading or trailing whitespace. -/
theorem claim_C10_sanitizeContent (s : String) :
    sanitizeContent (sanitizeContent s) = sanitizeContent s ∧
    (sanitizeContent s).data.all
      (fun c => !isNulChar c && !isRemovedControl c) = true ∧
    (sanitizeContent s).data.head?.all (fun c => !isJsWhitespace c) = true ∧
    (sanitizeContent s).data.getLast?.all (fun c => !isJsWhitespace c) = true :=
  ⟨sanitizeContent_idem s, sanitizeContent_data_all s,
   sanitizeContent_head_all s, sanitizeContent_getLast_all s⟩

/-- C2: the File State Resolver `getExistingFiles` returns the file map of the
most recently created Fragment-bearing Message of the project (the spec-worded
`resolveSpec`), returns the empty map when no such Message exists, and is
unchanged by any run of appended Fragment-free (error) messages — failed turns
never contribute file state. -/
theorem claim_C2_resolver (db errs : List Message) (pid : String) :
    getExistingFiles db pid = resolveSpec db pid ∧
    ((∀ m ∈ db, m.projectId = pid → m.fragment = none) →
      getExistingFiles db pid = []) ∧
    ((∀ m ∈ errs, m.fragment = none) →
      getExistingFiles (db ++ errs) pid = getExistingFiles db pid) :=
  ⟨getExistingFiles_eq_resolveSpec db pid, getExistingFiles_empty db pid,
   getExistingFiles_append_fragfree db errs pid⟩

def w2Frag : Fragment :=
  { title := "Counter app", sandboxURL := "https://host",
    files := [("app/page.tsx", "content")] }

def w2Result : Message :=
  { projectId := "p1", content := "resp", role := .assistant, msgType := .result,
    images := [], fragment := some w2Frag }

def w2Err : Message :=
  { projectId := "p1", content := errorBody, role := .assistant, msgType := .error,
    images := [], fragment := none }

/-- Witness for C2 at a concrete database: an appended error message does not
change the resolved map, and a fragment-free project resolves to the empty
map. -/
theorem claim_C2_witness :
    getExistingFiles ([w2Result] ++ [w2Err]) "p1" = getExistingFiles [w2Result] "p1" ∧
    getExistingFiles [w2Err] "p1" = [] :=
  ⟨(claim_C2_resolver [w2Result] [w2Err] "p1").2.2 (by decide),
   (claim_C2_resolver [w2Err] [w2Err] "p1").2.1 (by decide)⟩

/-- C1: the persisted outcome is kind `result` iff the recorded summary is
non-empty AND the working file map is non-empty; in particular a state whose
summary contains the `<task_summary>` marker but whose file map is empty is
persisted as kind `error`. -/
theorem claim_C1_classification (pid url : String) (st : AgentState)
    (titleOutput respOutput : List AKMessage) (m : Message)
    (h : saveResult pid st url titleOutput respOutput = .ok m) :
    (m.msgType = .result ↔ (st.summary ≠ "" ∧ st.files ≠ [])) ∧
    (containsTaskSummary st.summary = true → st.files = [] →
      m.msgType = .error) := by
  rcases saveResult_ok_cases h with ⟨he, rfl⟩ | ⟨he, resp, title, hr, ht, rfl⟩
  · refine ⟨⟨fun hk => absurd hk (by simp), fun hsf => ?_⟩, fun _ _ => rfl⟩
    rcases (hasError_true_iff st).mp he with h1 | h1
    · exact absurd h1 hsf.1
    · exact absurd h1 hsf.2
  · refine ⟨⟨fun _ => (hasError_false_iff st).mp he, fun _ => rfl⟩, ?_⟩
    intro _ hf
    exact absurd hf ((hasError_false_iff st).mp he).2

def c1State : AgentState := { summary := "<task_summary>ok</task_summary>", files := [] }

def c1Msg : Message :=
  { projectId := "p1", content := errorBody, role := .assistant, msgType := .error,
    images := [], fragment := none }

/-- Witness for C1 at a concrete state: the agent claimed success
(`<task_summary>` marker present) but wrote no files, and the persisted
outcome is kind `error`. -/
theorem claim_C1_witness :
    (c1Msg.msgType = .result ↔ (c1State.summary ≠ "" ∧ c1State.files ≠ [])) ∧
    (containsTaskSummary c1State.summary = true → c1State.files = [] →
      c1Msg.msgType = .error) :=
  claim_C1_classification "p1" "https://h" c1State [] [] c1Msg rfl

/-- C9: on the success path every persisted text field equals the sanitizer
applied to its raw value — the response body, the fragment title, and every
file content in the fragment's file map — and none of them contains a NUL. -/
theorem claim_C9_sanitized (pid url : String) (st : AgentState)
    (titleOutput respOutput : List AKMessage) (m : Message) (f : Fragment)
    (h : saveResult pid st url titleOutput respOutput = .ok m)
    (hk : m.msgType = .result) (hf : m.fragment = some f) :
    (∃ rawResp, parseAgentOutput respOutput = .ok rawResp ∧
      m.content = sanitizeContent rawResp) ∧
    (∃ rawTitle, parseAgentOutput titleOutput = .ok rawTitle ∧
      f.title = sanitizeContent rawTitle) ∧
    f.files = st.files.map (fun e => (e.1, sanitizeContent e.2)) ∧
    (∀ c ∈ m.content.data, isNulChar c = false) ∧
    (∀ c ∈ f.title.data, isNulChar c = false) ∧
    (∀ e ∈ f.files, ∀ c ∈ e.2.data, isNulChar c = false) := by
  rcases saveResult_ok_cases h with ⟨he, rfl⟩ | ⟨he, resp, title, hr, ht, rfl⟩
  · exact absurd hk (by simp)
  · obtain rfl := Option.some.inj hf
    refine ⟨⟨resp, hr, rfl⟩, ⟨title, ht, rfl⟩, rfl, ?_, ?_, ?_⟩
    · intro c hc
      exact sanitizeContent_no_nul hc
    · intro c hc
      exact sanitizeContent_no_nul hc
    · intro e he2 c hc
      rw [List.mem_map] at he2
      obtain ⟨a, -, rfl⟩ := he2
      exact sanitizeContent_no_nul hc

def c9State : AgentState :=
  { summary := "<task_summary>done</task_summary>",
    files := [("app/page.tsx", "hi\x00there")] }

def c9Title : List AKMessage := [.text "assistant" (.inl "My title")]

def c9Resp : List AKMessage := [.text "assistant" (.inl " resp\x00 ")]

def c9Frag : Fragment :=
  { title := sanitizeContent "My title", sandboxURL := "https://h",
    files := c9State.files.map (fun e => (e.1, sanitizeContent e.2)) }

def c9Msg : Message :=
  { projectId := "p1", content := sanitizeContent " resp\x00 ", role := .assistant,
    msgType := .result, images := [], fragment := some c9Frag }

/-- Witness for C9 at a concrete successful save whose raw response, title and
file contents contain NUL bytes and stray whitespace. -/
theorem claim_C9_witness :
    (∃ rawResp, parseAgentOutput c9Resp = .ok rawResp ∧
      c9Msg.content = sanitizeContent rawResp) ∧
    (∃ rawTitle, parseAgentOutput c9Title = .ok rawTitle ∧
      c9Frag.title = sanitizeContent rawTitle) ∧
    c9Frag.files = c9State.files.map (fun e => (e.1, sanitizeContent e.2)) ∧
    (∀ c ∈ c9Msg.content.data, isNulChar c = false) ∧
    (∀ c ∈ c9Frag.title.data, isNulChar c = false) ∧
    (∀ e ∈ c9Frag.files, ∀ c ∈ e.2.data, isNulChar c = false) :=
  claim_C9_sanitized "p1" "https://h" c9State c9Title c9Resp c9Msg c9Frag
    rfl rfl rfl

def c3State : AgentState :=
  { summary := "<task_summary>built</task_summary>", files := [("app/page.tsx", "x")] }

/-- C3 counterexample: an accepted turn can persist zero assistant Messages.
Credit gating passed (`messageRouter.create` succeeded and wrote the user
message), the agent state is fully successful, yet the title-generation call
rejects, the unguarded await propagates it, and the turn aborts before
`save-result` — the database gains no assistant Message, falsifying the
unconditional "exactly one assistant Message per accepted turn". -/
theorem claim_C3_cex :
    (messageCreate [] (.user "u3") .ok true "p3" "make an app" []).procError = none ∧
    (messageCreate [] (.user "u3") .ok true "p3" "make an app" []).db =
      [userMessage "p3" "make an app" []] ∧
    codeAgentSave (messageCreate [] (.user "u3") .ok true "p3" "make an app" []).db
      "p3" c3State "https://h" (.error "ETIMEDOUT")
      (.ok [.text "assistant" (.inl "All done")]) = .error "ETIMEDOUT" :=
  ⟨rfl, rfl, rfl⟩

/-- C3 (amended): the exactly-one guarantee is conditional on the turn
reaching persistence. When the turn tail completes, the `save-result` step
appends exactly one assistant message to the database, atomically carrying its
fragment when and only when its kind is `result`; an `error` outcome has the
fixed user-facing body and no fragment, a `result` outcome carries a fragment
with the sandbox preview URL and the sanitized file map. But an accepted turn
whose unguarded title/response-generation call rejects aborts before the save
step and persists zero assistant Messages. -/
theorem claim_C3_exactly_one (db : List Message) (pid url e : String)
    (st : AgentState) (titleRun respRun rr : Except String (List AKMessage))
    (db' : List Message) :
    (codeAgentSave db pid st url titleRun respRun = .ok db' →
      ∃ m, db' = db ++ [m] ∧ m.role = .assistant ∧
        (m.fragment.isSome = true ↔ m.msgType = .result) ∧
        (m.msgType = .error → m.content = errorBody ∧ m.fragment = none) ∧
        (m.msgType = .result → ∃ fr, m.fragment = some fr ∧ fr.sandboxURL = url ∧
          fr.files = st.files.map (fun e2 => (e2.1, sanitizeContent e2.2)))) ∧
    codeAgentSave db pid st url (.error e) rr = .error e := by
  refine ⟨?_, rfl⟩
  intro h
  unfold codeAgentSave at h
  cases hm : codeAgentTail pid st url titleRun respRun with
  | error e2 => rw [hm] at h; exact absurd h (by simp)
  | ok m =>
    rw [hm] at h
    obtain rfl := (Except.ok.inj h).symm
    refine ⟨m, rfl, ?_⟩
    obtain ⟨t, r, -, -, hs⟩ := codeAgentTail_ok hm
    rcases saveResult_ok_cases hs with ⟨-, rfl⟩ | ⟨-, resp, title, -, -, rfl⟩
    · exact ⟨rfl, by simp, fun _ => ⟨rfl, rfl⟩, fun hk => absurd hk (by simp)⟩
    · exact ⟨rfl, by simp, fun hk => absurd hk (by simp),
        fun _ => ⟨_, rfl, rfl, rfl⟩⟩

def c3Frag : Fragment :=
  { title := sanitizeContent "T", sandboxURL := "https://h",
    files := c3State.files.map (fun e => (e.1, sanitizeContent e.2)) }

def c3Msg : Message :=
  { projectId := "p1", content := sanitizeContent "R", role := .assistant,
    msgType := .result, images := [], fragment := some c3Frag }

/-- Witness for C3 (amended): a concrete completed turn tail appends exactly
one assistant message. -/
theorem claim_C3_witness :
    ∃ m, ([w2Err] ++ [c3Msg] = [w2Err] ++ [m]) ∧ m.role = .assistant := by
  obtain ⟨m, hdb, hrole, -⟩ :=
    (claim_C3_exactly_one [w2Err] "p1" "https://h" "boom" c3State
      (.ok [.text "assistant" (.inl "T")]) (.ok [.text "assistant" (.inl "R")])
      (.ok []) ([w2Err] ++ [c3Msg])).1 rfl
  exact ⟨m, hdb, hrole⟩

/-- C4 counterexample: the claim's unrestricted invariant "a Fragment exists
iff its owning Message has kind `result`" is violated in a reachable state —
a successful `projectRouter.create` persists a user Message with kind `result`
(`type: "RESULT"`) and no Fragment. -/
theorem claim_C4_cex :
    (projectCreate [] (.user "u1") .ok "p1" "build a counter" []).db =
      [userMessage "p1" "build a counter" []] ∧
    (userMessage "p1" "build a counter" []).msgType = .result ∧
    (userMessage "p1" "build a counter" []).fragment = none :=
  ⟨rfl, rfl, rfl⟩

/-- C4 (amended): in the role-restricted form the invariant holds and is
preserved by every Message-creating operation: a Fragment is attached only to
an assistant Message of kind `result`, an assistant Message carries a Fragment
iff its kind is `result` (so error Messages never carry one), and user
Messages never carry a Fragment. -/
theorem claim_C4_amended (db : List Message) (authS : AuthState)
    (limiter : ConsumeResult) (projectFound : Bool) (pid value url : String)
    (images : List String) (st : AgentState)
    (titleRun respRun : Except String (List AKMessage)) (db' : List Message)
    (hdb : dbInv db) :
    dbInv (messageCreate db authS limiter projectFound pid value images).db ∧
    dbInv (projectCreate db authS limiter pid value images).db ∧
    (codeAgentSave db pid st url titleRun respRun = .ok db' → dbInv db') := by
  refine ⟨?_, ?_, ?_⟩
  · cases authS with
    | anon => exact hdb
    | user uid =>
      cases projectFound with
      | false => exact hdb
      | true =>
        cases limiter with
        | ok => exact dbInv_append hdb (fragInv_userMessage pid value images)
        | quotaExceeded => exact hdb
        | storageError => exact hdb
  · cases authS with
    | anon => exact hdb
    | user uid =>
      cases limiter with
      | ok => exact dbInv_append hdb (fragInv_userMessage pid value images)
      | quotaExceeded => exact hdb
      | storageError => exact hdb
  · intro h
    unfold codeAgentSave at h
    cases hm : codeAgentTail pid st url titleRun respRun with
    | error e => rw [hm] at h; exact absurd h (by simp)
    | ok m =>
      rw [hm] at h
      obtain rfl := (Except.ok.inj h).symm
      obtain ⟨t, r, -, -, hs⟩ := codeAgentTail_ok hm
      exact dbInv_append hdb (fragInv_saveResult hs)

/-- Witness for C4 (amended): the invariant holds after a concrete successful
`messageRouter.create` on an empty database. -/
theorem claim_C4_witness :
    dbInv (messageCreate [] (.user "u1") .ok true "p1" "hi" []).db :=
  (claim_C4_amended [] (.user "u1") .ok true "p1" "hi" "https://h" []
    { summary := "", files := [] } (.ok []) (.ok []) []
    (fun m hm => absurd hm (List.not_mem_nil m))).1

def c5State : AgentState :=
  { summary := "<task_summary>ok</task_summary>", files := [("app/page.tsx", "x")] }

/-- C5 counterexample: with a fully successful agent state, a rejected
title-generation call makes the whole turn tail fail — nothing is persisted
and no placeholder is substituted, contradicting "a title/response-generation
failure never ... prevents persistence". -/
theorem claim_C5_cex :
    codeAgentTail "p1" c5State "https://h" (.error "ECONNRESET")
      (.ok [.text "assistant" (.inl "All done")]) = .error "ECONNRESET" := rfl

/-- C5 (amended): the placeholder fallback exists only inside
`parseAgentOutput` — a generator call that returns a non-text first message
yields the fixed placeholder `"Fragment"` for the affected field without
failing the turn — but the generator calls themselves are unguarded: if either
call rejects, the error propagates and the turn persists nothing. -/
theorem claim_C5_amended (pid url e : String) (st : AgentState)
    (tr : List AKMessage) :
    codeAgentTail pid st url (.error e) (.ok tr) = .error e ∧
    codeAgentTail pid st url (.ok tr) (.error e) = .error e ∧
    parseAgentOutput [AKMessage.nonText "assistant"] = .ok "Fragment" ∧
    (hasError st = false → ∀ m,
      codeAgentTail pid st url (.ok [AKMessage.nonText "assistant"])
        (.ok [AKMessage.nonText "assistant"]) = .ok m →
      m.content = "Fragment" ∧ ∃ fr, m.fragment = some fr ∧
        fr.title = "Fragment") := by
  refine ⟨rfl, rfl, rfl, ?_⟩
  intro he m hm
  obtain ⟨t, r, ht, hr, hs⟩ := codeAgentTail_ok hm
  obtain rfl := Except.ok.inj ht
  obtain rfl := Except.ok.inj hr
  rcases saveResult_ok_cases hs with ⟨he2, rfl⟩ | ⟨-, resp, title, hresp, htitle, rfl⟩
  · rw [he] at he2
    exact absurd he2 (by simp)
  · obtain rfl := Except.ok.inj hresp
    obtain rfl := Except.ok.inj htitle
    have hfr : sanitizeContent "Fragment" = "Fragment" := by decide
    exact ⟨hfr, ⟨_, rfl, hfr⟩⟩

def c5Frag : Fragment :=
  { title := sanitizeContent "Fragment", sandboxURL := "https://h",
    files := c5State.files.map (fun e => (e.1, sanitizeContent e.2)) }

def c5Msg : Message :=
  { projectId := "p1", content := sanitizeContent "Fragment", role := .assistant,
    msgType := .result, images := [], fragment := some c5Frag }

/-- Witness for C5 (amended) at a concrete success state: both generators
returned non-text output and the persisted message uses the placeholder. -/
theorem claim_C5_witness :
    c5Msg.content = "Fragment" ∧ ∃ fr, c5Msg.fragment = some fr ∧
      fr.title = "Fragment" :=
  (claim_C5_amended "p1" "https://h" "boom" c5State []).2.2.2 rfl c5Msg rfl

/-- C6: the three gate-failure causes are distinguishable typed outcomes for
both turn-triggering procedures: no identity maps to UNAUTHORIZED (raised by
the middleware before gating), quota exhaustion (a non-`Error` rejection from
the rate limiter) maps to TOO_MANY_REQUESTS, and a storage failure (an `Error`
rejection) maps to BAD_REQUEST — three pairwise distinct codes. -/
theorem claim_C6_distinct_denials (db : List Message) (uid pid value : String)
    (images : List String) (limiter : ConsumeResult) (projectFound : Bool) :
    (messageCreate db .anon limiter projectFound pid value images).procError =
      some (.UNAUTHORIZED, "Not authenticated. Please Login or Signup") ∧
    (messageCreate db (.user uid) .quotaExceeded true pid value images).procError =
      some (.TOO_MANY_REQUESTS, "You have run out of credits") ∧
    (messageCreate db (.user uid) .storageError true pid value images).procError =
      some (.BAD_REQUEST, "Something went wrong") ∧
    (projectCreate db .anon limiter pid value images).procError =
      some (.UNAUTHORIZED, "Not authenticated. Please Login or Signup") ∧
    (projectCreate db (.user uid) .quotaExceeded pid value images).procError =
      some (.TOO_MANY_REQUESTS, "You have run out of credits") ∧
    (projectCreate db (.user uid) .storageError pid value images).procError =
      some (.BAD_REQUEST, "Something went wrong") ∧
    TrpcCode.UNAUTHORIZED ≠ TrpcCode.TOO_MANY_REQUESTS ∧
    TrpcCode.UNAUTHORIZED ≠ TrpcCode.BAD_REQUEST ∧
    TrpcCode.TOO_MANY_REQUESTS ≠ TrpcCode.BAD_REQUEST :=
  ⟨rfl, rfl, rfl, rfl, rfl, rfl, by decide, by decide, by decide⟩

/-- Witness for C6 at concrete inputs: a quota-denied `messageRouter.create`
surfaces TOO_MANY_REQUESTS. -/
theorem claim_C6_witness :
    (messageCreate [] (.user "u1") .quotaExceeded true "p1" "hi" []).procError =
      some (.TOO_MANY_REQUESTS, "You have run out of credits") :=
  (claim_C6_distinct_denials [] "u1" "p1" "hi" [] .ok true).2.1

/-- C7 counterexample: the turn-triggering procedures do not persist the user
Message before gating or atomically with it — on a successful run gating
(`consumeCredits`) is a separate step strictly before the user-message write,
and a quota-denied run leaves the database without any user Message (so no
user message "already recorded" at denial time exists). -/
theorem claim_C7_cex :
    (messageCreate [] (.user "u1") .ok true "p1" "hi" []).trace =
      [.projectLookup, .gate, .persistUserMessage, .sendInngestEvent] ∧
    (messageCreate [] (.user "u1") .quotaExceeded true "p1" "hi" []).db = [] ∧
    (messageCreate [] (.user "u1") .quotaExceeded true "p1" "hi" []).procError =
      some (.TOO_MANY_REQUESTS, "You have run out of credits") :=
  ⟨rfl, rfl, rfl⟩

/-- C7 (amended): the user Message is persisted only after gating succeeds —
any denied invocation leaves the database unchanged and performs no
user-message write at all, and on a successful invocation gating occurs at a
strictly earlier position of the effect trace than the user-message write; in
particular no user Message is ever created after a denial. -/
theorem claim_C7_amended (db : List Message) (authS : AuthState)
    (limiter : ConsumeResult) (projectFound : Bool) (pid value : String)
    (images : List String) :
    ((messageCreate db authS limiter projectFound pid value images).procError.isSome = true →
      (messageCreate db authS limiter projectFound pid value images).db = db ∧
      TurnEvent.persistUserMessage ∉
        (messageCreate db authS limiter projectFound pid value images).trace) ∧
    ((messageCreate db authS limiter projectFound pid value images).procError = none →
      (messageCreate db authS limiter projectFound pid value images).db =
        db ++ [userMessage pid value images] ∧
      ∃ i j : Nat, i < j ∧
        (messageCreate db authS limiter projectFound pid value images).trace[i]? =
          some TurnEvent.gate ∧
        (messageCreate db authS limiter projectFound pid value images).trace[j]? =
          some TurnEvent.persistUserMessage) ∧
    ((projectCreate db authS limiter pid value images).procError.isSome = true →
      (projectCreate db authS limiter pid value images).db = db ∧
      TurnEvent.persistUserMessage ∉
        (projectCreate db authS limiter pid value images).trace) ∧
    ((projectCreate db authS limiter pid value images).procError = none →
      (projectCreate db authS limiter pid value images).db =
        db ++ [userMessage pid value images] ∧
      ∃ i j : Nat, i < j ∧
        (projectCreate db authS limiter pid value images).trace[i]? =
          some TurnEvent.gate ∧
        (projectCreate db authS limiter pid value images).trace[j]? =
          some TurnEvent.persistUserMessage) := by
  have hnil : TurnEvent.persistUserMessage ∉ ([] : List TurnEvent) := by decide
  have hpl : TurnEvent.persistUserMessage ∉ [TurnEvent.projectLookup] := by decide
  have hplg : TurnEvent.persistUserMessage ∉
      [TurnEvent.projectLookup, TurnEvent.gate] := by decide
  have hg : TurnEvent.persistUserMessage ∉ [TurnEvent.gate] := by decide
  cases authS with
  | anon =>
    exact ⟨fun _ => ⟨rfl, hnil⟩, fun h => Option.noConfusion h,
           fun _ => ⟨rfl, hnil⟩, fun h => Option.noConfusion h⟩
  | user uid =>
    cases projectFound with
    | false =>
      cases limiter with
      | ok =>
        exact ⟨fun _ => ⟨rfl, hpl⟩, fun h => Option.noConfusion h,
               fun h => Bool.noConfusion h,
               fun _ => ⟨rfl, 0, 1, by decide, rfl, rfl⟩⟩
      | quotaExceeded =>
        exact ⟨fun _ => ⟨rfl, hpl⟩, fun h => Option.noConfusion h,
               fun _ => ⟨rfl, hg⟩, fun h => Option.noConfusion h⟩
      | storageError =>
        exact ⟨fun _ => ⟨rfl, hpl⟩, fun h => Option.noConfusion h,
               fun _ => ⟨rfl, hg⟩, fun h => Option.noConfusion h⟩
    | true =>
      cases limiter with
      | ok =>
        exact ⟨fun h => Bool.noConfusion h,
               fun _ => ⟨rfl, 1, 2, by decide, rfl, rfl⟩,
               fun h => Bool.noConfusion h,
               fun _ => ⟨rfl, 0, 1, by decide, rfl, rfl⟩⟩
      | quotaExceeded =>
        exact ⟨fun _ => ⟨rfl, hplg⟩, fun h => Option.noConfusion h,
               fun _ => ⟨rfl, hg⟩, fun h => Option.noConfusion h⟩
      | storageError =>
        exact ⟨fun _ => ⟨rfl, hplg⟩, fun h => Option.noConfusion h,
               fun _ => ⟨rfl, hg⟩, fun h => Option.noConfusion h⟩

/-- Witness for C7 (amended): a concrete quota-denied `messageRouter.create`
leaves the database unchanged and never writes the user message. -/
theorem claim_C7_witness :
    (messageCreate [] (.user "u2") .quotaExceeded true "p2" "hey" []).db = [] ∧
    TurnEvent.persistUserMessage ∉
      (messageCreate [] (.user "u2") .quotaExceeded true "p2" "hey" []).trace :=
  (claim_C7_amended [] (.user "u2") .quotaExceeded true "p2" "hey" []).1 rfl

/-- C8: the generation loop always terminates — the network makes at most
`maxIter = 15` agent calls; once a summary is recorded the router stops
scheduling the agent (the loop returns immediately, so it stops right after
the first response whose last assistant text contains `<task_summary>`); and
if none of the (at most 15 consumed) responses contains the marker, the
summary stays empty and the turn is classified as an error, not retried. -/
theorem claim_C8_termination (st : AgentState) (outs : List AgentTurnOutput)
    (o : AgentTurnOutput) (rest : List AgentTurnOutput) :
    networkMaxIter = 15 ∧
    (runNetwork networkMaxIter st outs).2 ≤ networkMaxIter ∧
    (st.summary ≠ "" → runNetwork networkMaxIter st outs = (st, 0)) ∧
    ((∀ o' ∈ outs.take networkMaxIter, ∀ t,
        lastAssistantTextMessageContent o'.output = some t →
        containsTaskSummary t = false) →
      (runNetwork networkMaxIter st outs).1.summary = st.summary) ∧
    (st.summary = "" →
      (∀ o' ∈ outs.take networkMaxIter, ∀ t,
        lastAssistantTextMessageContent o'.output = some t →
        containsTaskSummary t = false) →
      hasError (runNetwork networkMaxIter st outs).1 = true) ∧
    (st.summary = "" → (runIteration st o).summary ≠ "" →
      runNetwork networkMaxIter st (o :: rest) = (runIteration st o, 1)) := by
  refine ⟨rfl, runNetwork_iter_le networkMaxIter st outs,
    runNetwork_stop networkMaxIter st outs,
    runNetwork_no_marker networkMaxIter st outs, ?_, ?_⟩
  · intro hs hsum
    have h1 := runNetwork_no_marker networkMaxIter st outs hsum
    rw [hasError, h1, hs]
    rfl
  · intro hs hset
    exact runNetwork_first_marker 14 st o rest (fun hne => hne hs) hset

def c8Out : AgentTurnOutput :=
  { output := [.text "assistant" (.inl "still working on it")],
    writes := [("app/page.tsx", "x")] }

/-- Witness for C8: a concrete run whose single agent response carries no
`<task_summary>` marker ends with an error-classified state. -/
theorem claim_C8_witness :
    hasError (runNetwork networkMaxIter { summary := "", files := [] } [c8Out]).1 = true := by
  refine (claim_C8_termination { summary := "", files := [] } [c8Out] c8Out []).2.2.2.2.1
    rfl ?_
  intro o' ho' t ht
  have ho2 : o' = c8Out := by
    have h1 : List.take networkMaxIter [c8Out] = [c8Out] := rfl
    rw [h1, List.mem_singleton] at ho'
    exact ho'
  subst ho2
  have hv : lastAssistantTextMessageContent c8Out.output =
      some "still working on it" := rfl
  obtain rfl := Option.some.inj (ht.symm.trans hv)
  decide
